import Mathlib

/-!
Verification of the retrieval-orchestration core of a semantic document
search service: the text chunker (`DocumentProcessor.clean_text`,
`DocumentProcessor.split_into_chunks`), the two-tier embedding cache
(`EmbeddingCache.get` / `EmbeddingCache.put`), the query-result cache and
search pipeline (`SearchService.search`, `SearchService._post_process_results`),
the vector-store parameter defaulting (`VectorStoreService.search_similar`)
and the API-level parameter validation (`validate_search_limits`).

Texts are modelled as `List Char`; Python regex character classes (`\w`,
`\s`) are modelled on their ASCII behaviour; floats are modelled as `ℚ`.
-/

set_option allowUnsafeReducibility true
attribute [local semireducible] Rat.mul Rat.add Rat.sub Rat.inv Rat.div
set_option allowUnsafeReducibility false

namespace DeepLSearch

/-- ASCII model of Python's `\s` / `str.isspace` class. -/
def isPySpace (c : Char) : Bool :=
  c = ' ' || c = '\t' || c = '\n' || c = '\r' || c = '\x0b' || c = '\x0c'

/-- ASCII model of Python's `\w` class: alphanumeric or underscore. -/
def isWordChar (c : Char) : Bool :=
  c.isAlphanum || c = '_'

/-- Characters kept by `clean_text`'s allowlist
`[\w\s\.\,\!\?\;\:\-\(\)\[\]\"\']`. -/
def isAllowed (c : Char) : Bool :=
  isWordChar c || isPySpace c ||
  c = '.' || c = ',' || c = '!' || c = '?' || c = ';' || c = ':' ||
  c = '-' || c = '(' || c = ')' || c = '[' || c = ']' || c = '\"' || c = '\''

/-- Sentence-terminal punctuation used by the `(?<=[.!?])\s+` split. -/
def isTerm (c : Char) : Bool :=
  c = '.' || c = '!' || c = '?'

/-- Model of Python's `str.strip()`: drop whitespace from both ends. -/
def pyStrip (l : List Char) : List Char :=
  ((l.dropWhile isPySpace).reverse.dropWhile isPySpace).reverse

/-- Model of Python's `str.split()` (no argument): split on whitespace
runs, discarding empty fields. `cur` is the current word, reversed. -/
def pySplitAux : (cur : List Char) → List Char → List (List Char)
  | cur, [] => if cur = [] then [] else [cur.reverse]
  | cur, c :: cs =>
    if isPySpace c then
      if cur = [] then pySplitAux [] cs else cur.reverse :: pySplitAux [] cs
    else pySplitAux (c :: cur) cs

def pySplit (l : List Char) : List (List Char) :=
  pySplitAux [] l

/-- Replace every maximal run of characters satisfying `p` by the single
character `repl` (model of `re.sub(r'X+', repl, text)` for a class `X`).
`inRun` records whether the previous character was part of a replaced
run. -/
def collapseRunsAux (p : Char → Bool) (repl : Char) : (inRun : Bool) → List Char → List Char
  | _, [] => []
  | inRun, c :: cs =>
    if p c then
      if inRun then collapseRunsAux p repl true cs
      else repl :: collapseRunsAux p repl true cs
    else c :: collapseRunsAux p repl false cs

def collapseRuns (p : Char → Bool) (repl : Char) (l : List Char) : List Char :=
  collapseRunsAux p repl false l

/-- Replace every maximal run of two or more characters satisfying `p` by
the single character `repl` (model of `re.sub(r'X{2,}', repl, text)`);
a lone matching character is kept. `inRun` records whether the previous
character was part of a replaced run. -/
def collapseMultiAux (p : Char → Bool) (repl : Char) : (inRun : Bool) → List Char → List Char
  | _, [] => []
  | inRun, c :: cs =>
    if p c then
      if inRun then collapseMultiAux p repl true cs
      else
        match cs with
        | c2 :: _ =>
          if p c2 then repl :: collapseMultiAux p repl true cs
          else c :: collapseMultiAux p repl false cs
        | [] => [c]
    else c :: collapseMultiAux p repl false cs

def collapseMulti (p : Char → Bool) (repl : Char) (l : List Char) : List Char :=
  collapseMultiAux p repl false l

/-- `DocumentProcessor.clean_text`: collapse whitespace runs to a single
space, replace runs of characters outside the allowlist by a space,
collapse repeated `.` to `.` and repeated `!?` to `!`, then strip. -/
def clean_text (raw : List Char) : List Char :=
  pyStrip
    (collapseMulti (fun c => c = '!' || c = '?') '!'
      (collapseMulti (fun c => c = '.') '.'
        (collapseRuns (fun c => !isAllowed c) ' '
          (collapseRuns isPySpace ' ' raw))))

/-- Model of `re.split(r'(?<=[.!?])\s+', text)`: cut at every maximal
whitespace run whose preceding character is sentence-terminal; fields
keep their punctuation, separators are dropped. `cur` is the current
field accumulated in reverse; `inSep` records that the scan is inside a
separator run. -/
def sentenceSplitAux : (cur : List Char) → (inSep : Bool) → (rest : List Char) → List (List Char)
  | cur, _, [] => [cur.reverse]
  | cur, true, c :: cs =>
    if isPySpace c then sentenceSplitAux cur true cs
    else sentenceSplitAux [c] false cs
  | cur, false, c :: cs =>
    if isPySpace c && (match cur with | p :: _ => isTerm p | [] => false) then
      cur.reverse :: sentenceSplitAux [] true cs
    else
      sentenceSplitAux (c :: cur) false cs

def sentenceSplit (text : List Char) : List (List Char) :=
  sentenceSplitAux [] false text

/-- Inner word loop of `split_into_chunks` (lines 350-362): greedy
accumulation of the words of an over-long sentence. Returns the extended
chunk list and the final `word_chunk` buffer. -/
def wordLoop (size : Nat) :
    List (List Char) → List Char → List (List Char) → List (List Char) × List Char
  | [], wordChunk, acc => (acc, wordChunk)
  | w :: ws, wordChunk, acc =>
    if (wordChunk ++ ' ' :: w).length ≤ size then
      wordLoop size ws (if wordChunk = [] then w else wordChunk ++ ' ' :: w) acc
    else
      if wordChunk = [] then wordLoop size ws w acc
      else wordLoop size ws w (acc ++ [pyStrip wordChunk])

/-- Sentence loop of `split_into_chunks` (lines 337-362): greedy
accumulation of sentences; an over-long sentence is word-split. Returns
the chunk list and the final `current_chunk` buffer. -/
def sentenceLoop (size : Nat) :
    List (List Char) → List Char → List (List Char) → List (List Char) × List Char
  | [], cur, acc => (acc, cur)
  | s :: ss, cur, acc =>
    if (cur ++ ' ' :: s).length ≤ size then
      sentenceLoop size ss (if cur = [] then s else cur ++ ' ' :: s) acc
    else
      let acc' := if cur = [] then acc else acc ++ [pyStrip cur]
      if s.length ≤ size then
        sentenceLoop size ss s acc'
      else
        let r := wordLoop size (pySplit s) [] acc'
        sentenceLoop size ss r.2 r.1

/-- The chunk list of `split_into_chunks` before the overlap pass
(lines 331-366). -/
def preChunks (size : Nat) (text : List Char) : List (List Char) :=
  let r := sentenceLoop size (sentenceSplit text) [] []
  if r.2 = [] then r.1 else r.1 ++ [pyStrip r.2]

/-- Python `lst[-k:]` for `k = overlap // 10`: the last `k` elements,
or the whole list when `k = 0` (`lst[-0:]` is `lst`). -/
def takeLastSlice (k : Nat) (l : List α) : List α :=
  if k = 0 then l else l.drop (l.length - k)

/-- `" ".join(words)`. -/
def joinWords (ws : List (List Char)) : List Char :=
  (ws.intersperse [' ']).flatten

/-- Overlap pass of `split_into_chunks` (lines 368-377): every chunk but
the first is prefixed with the last `overlap // 10` words of the previous
chunk. `prev` is the previous (pre-overlap) chunk. -/
def addOverlapAux (overlap : Nat) : (prev : List Char) → List (List Char) → List (List Char)
  | _, [] => []
  | prev, c :: cs =>
    (if 0 < overlap then
        joinWords (takeLastSlice (overlap / 10) (pySplit prev)) ++ ' ' :: c
      else c) :: addOverlapAux overlap c cs

def addOverlap (overlap : Nat) : List (List Char) → List (List Char)
  | [] => []
  | c :: cs => c :: addOverlapAux overlap c cs

/-- `DocumentProcessor.split_into_chunks` (lines 319-379). -/
def split_into_chunks (size overlap : Nat) (text : List Char) : List (List Char) :=
  if text = [] then []
  else if text.length < size then [text]
  else addOverlap overlap (preChunks size text)

/-- The chunking stage as run by `process_document`: `clean_text`
followed by `split_into_chunks`. -/
def chunkPipeline (size overlap : Nat) (raw : List Char) : List (List Char) :=
  split_into_chunks size overlap (clean_text raw)

/-- A segment satisfies the chunk-size contract when it is within the
size bound or is a single whitespace-free word. -/
def chunkOk (size : Nat) (c : List Char) : Prop :=
  c.length ≤ size ∨ c.all (fun ch => !isPySpace ch) = true

/-- `app/config.py` `Settings`: the configuration fields the core reads,
with their declared defaults. -/
structure Settings where
  max_chunk_size : Nat := 1000
  chunk_overlap : Nat := 200
  embedding_dimension : Nat := 384
  default_limit : Int := 10
  similarity_threshold : ℚ := 1/2
  deriving Repr, DecidableEq

def defaultSettings : Settings := {}

/-! ## EmbeddingCache (`app/services/embedding_service.py` lines 31-102)

The SHA-256 fingerprint `_get_text_hash` is modelled by a parameter
`h : String → String`; the theorems that rely on hash uniqueness take
injectivity of `h` as a hypothesis. Vectors (`np.ndarray`) are modelled
as `List ℚ`. A persistent-tier entry is `Option (List ℚ)`: `none` models
a file whose pickle payload fails to deserialize (a corrupt entry); the
`pickle.dump` in `put` is modelled as succeeding. -/

/-- Python dict assignment `d[k] = v`: replace the binding if `k` is
present, otherwise append it (insertion order). -/
def dictInsert (k : String) (v : α) : List (String × α) → List (String × α)
  | [] => [(k, v)]
  | (k', v') :: rest => if k' = k then (k', v) :: rest else (k', v') :: dictInsert k v rest

/-- Removal of a key (model of `cache_file.unlink()`). -/
def dictRemove (k : String) (l : List (String × α)) : List (String × α) :=
  l.filter (fun e => e.1 ≠ k)

/-- `EmbeddingCache.max_memory_items` (set to 1000 in `__init__`). -/
def maxMemoryItems : Nat := 1000

/-- State of one `EmbeddingCache`: bounded in-memory dict and persistent
(disk) tier, both keyed by the text hash. -/
structure EmbState where
  memory : List (String × List ℚ)
  disk : List (String × Option (List ℚ))
  deriving Repr, DecidableEq

/-- `EmbeddingCache.get` (lines 58-85): memory tier first; then disk,
promoting into memory when below capacity; a corrupt disk entry is
removed and treated as a miss; total miss returns `none`. Returns the
looked-up value and the successor state. -/
def EmbeddingCache.get (h : String → String) (text : String) (st : EmbState) :
    Option (List ℚ) × EmbState :=
  let k := h text
  match st.memory.lookup k with
  | some v => (some v, st)
  | none =>
    match st.disk.lookup k with
    | some (some v) =>
      (some v,
        if st.memory.length < maxMemoryItems then
          { st with memory := dictInsert k v st.memory }
        else st)
    | some none => (none, { st with disk := dictRemove k st.disk })
    | none => (none, st)

/-- `EmbeddingCache.put` (lines 87-102): store in the memory tier only
while below capacity, and always in the persistent tier. -/
def EmbeddingCache.put (h : String → String) (text : String) (v : List ℚ)
    (st : EmbState) : EmbState :=
  let k := h text
  { memory :=
      if st.memory.length < maxMemoryItems then dictInsert k v st.memory
      else st.memory,
    disk := dictInsert k (some v) st.disk }

/-- The cache state holds the vector `v` for key `k`: in the memory
tier, or (with the memory tier silent) as a good entry of the persistent
tier. `EmbeddingCache.get` on such a state answers `v`. -/
def EmbState.holdsVec (st : EmbState) (k : String) (v : List ℚ) : Prop :=
  st.memory.lookup k = some v ∨
    (st.memory.lookup k = none ∧ st.disk.lookup k = some (some v))

/-- Neither tier has an entry for key `k` (the key was never put). -/
def EmbState.absentFor (st : EmbState) (k : String) : Prop :=
  st.memory.lookup k = none ∧ st.disk.lookup k = none

/-! ## SearchResult and ranking (`vector_store.py`, `search_service.py`) -/

/-- The metadata keys `_post_process_results` reads or writes, modelled
as optional fields (a `none` / `false` field models an absent dict key). -/
structure ResultMeta where
  keywordMatches : Option (List (List Char)) := none
  keywordBoost : Option ℚ := none
  originalScore : Option ℚ := none
  textLengthWords : Option Nat := none
  diversityPenalty : Bool := false
  deriving Repr, DecidableEq

/-- `vector_store.py` `SearchResult` (fields the ranking stage uses). -/
structure SearchResult where
  chunk_id : String
  text : List Char
  score : ℚ
  source_file : String
  metadata : ResultMeta := {}
  deriving Repr, DecidableEq

/-- ASCII model of `str.lower()`. -/
def toLowerL (l : List Char) : List Char :=
  l.map Char.toLower

/-- Keyword boost and length normalization applied to one candidate
(`_post_process_results` lines 378-408). `queryWords` is the deduplicated
word set of the lowercased query. -/
def enhanceResult (queryWords : List (List Char)) (r : SearchResult) : SearchResult :=
  let textWords := (pySplit (toLowerL r.text)).dedup
  let commonWords := queryWords.filter (fun w => w ∈ textWords)
  let r1 :=
    if commonWords ≠ [] then
      let boost : ℚ := min (1/10) ((commonWords.length : ℚ) / (queryWords.length : ℚ) * (1/10))
      { r with
        score := min 1 (r.score + boost),
        metadata := { r.metadata with
          keywordMatches := some commonWords, keywordBoost := some boost } }
    else r
  let textLength := (pySplit r.text).length
  let r2 :=
    if textLength < 10 then { r1 with score := r1.score * (9/10) }
    else if 500 < textLength then { r1 with score := r1.score * (19/20) }
    else r1
  { r2 with metadata := { r2.metadata with
      originalScore := some r.score, textLengthWords := some textLength } }

/-- The over-quota treatment (lines 423-426): score ×0.8 and the
`diversity_penalty` flag. -/
def penalize (r : SearchResult) : SearchResult :=
  { r with
    score := r.score * (4/5),
    metadata := { r.metadata with diversityPenalty := true } }

/-- `r` is an unpenalized result from source file `s`. -/
def unpenFrom (s : String) (r : SearchResult) : Bool :=
  decide (r.source_file = s) && !r.metadata.diversityPenalty

/-- The comparison of `sorted(·, key=lambda r: r.score, reverse=True)`:
`a` may precede `b` when `b.score ≤ a.score`. -/
def scoreGE (a b : SearchResult) : Prop :=
  b.score ≤ a.score

instance : DecidableRel scoreGE :=
  fun a b => inferInstanceAs (Decidable (b.score ≤ a.score))

instance : IsTotal SearchResult scoreGE :=
  ⟨fun a b => le_total b.score a.score⟩

instance : IsTrans SearchResult scoreGE :=
  ⟨fun _ _ _ hab hbc => le_trans hbc hab⟩

/-- `sorted(·, key=lambda r: r.score, reverse=True)` orders by score
descending, keeping the original order of equal scores (Python's sort is
stable; a stable sort is unique, so it is modelled by the stable
insertion sort). -/
def sortByScoreDesc (l : List SearchResult) : List SearchResult :=
  List.insertionSort scoreGE l

/-- Diversity pass (lines 410-426): walk the score-sorted candidates,
keeping at most `maxPerFile` per source file unchanged; candidates beyond
the quota are kept but penalized. `counts` models the `file_counts` dict. -/
def diversityLoop (maxPerFile : Nat) (counts : String → Nat) :
    List SearchResult → List SearchResult
  | [] => []
  | r :: rs =>
    if counts r.source_file < maxPerFile then
      r :: diversityLoop maxPerFile
        (Function.update counts r.source_file (counts r.source_file + 1)) rs
    else
      penalize r :: diversityLoop maxPerFile counts rs

/-- `SearchService._post_process_results` (lines 360-431). -/
def post_process_results (results : List SearchResult) (query : List Char) :
    List SearchResult :=
  if results = [] then results
  else
    let queryWords := (pySplit (toLowerL query)).dedup
    let processed := results.map (enhanceResult queryWords)
    let maxPerFile := max 1 (results.length / 3)
    let diverse := diversityLoop maxPerFile (fun _ => 0) (sortByScoreDesc processed)
    sortByScoreDesc diverse

/-! ## EmbeddingService.encode_single and SearchService.search -/

/-- Outcome of the external embedding provider for the query text:
a vector, an exception inside `model.encode` (caught at
`embedding_service.py` line 241), or a `RuntimeError` from `_load_model`
(line 195, not caught inside `encode_single`). -/
inductive ProviderOutcome where
  | ok (v : List ℚ)
  | encodeError
  | loadError
  deriving Repr, DecidableEq

/-- The environment one `SearchService.search` call runs against:
the provider outcome for the query, the embedding-cache answer for the
normalized query, the list the vector store returns for the query
vector, and the configured embedding dimension. -/
structure SearchEnv where
  provider : ProviderOutcome
  embCache : Option (List ℚ)
  vectorResults : List SearchResult
  dim : Nat := 384
  deriving Repr, DecidableEq

/-- `EmbeddingService.encode_single` (lines 197-244): empty/whitespace
text yields a zero vector; otherwise the cache is consulted; on a miss
the provider runs — an exception during encoding is caught and replaced
by a zero vector (line 244), while a model-load failure propagates
(`Except.error`). -/
def encode_single (env : SearchEnv) (text : List Char) : Except Unit (List ℚ) :=
  if pyStrip text = [] then .ok (List.replicate env.dim 0)
  else
    match env.embCache with
    | some v => .ok v
    | none =>
      match env.provider with
      | .ok v => .ok v
      | .encodeError => .ok (List.replicate env.dim 0)
      | .loadError => .error ()

/-- Key of the query-result cache: the `f"{query}:{limit}:{threshold}"`
string is modelled by the triple itself. -/
structure CacheKey where
  query : List Char
  limit : Option Int
  scoreThreshold : Option ℚ
  deriving Repr, DecidableEq

/-- One query-cache entry: the processed results plus the store time. -/
structure CacheEntry where
  results : List SearchResult
  time : ℚ
  deriving Repr, DecidableEq

abbrev QueryCache := List (CacheKey × CacheEntry)

def cacheLookup (c : QueryCache) (k : CacheKey) : Option CacheEntry :=
  match c.find? (fun e => e.1 = k) with
  | some e => some e.2
  | none => none

def cacheInsert (k : CacheKey) (v : CacheEntry) : QueryCache → QueryCache
  | [] => [(k, v)]
  | (k', v') :: rest =>
    if k' = k then (k', v) :: rest else (k', v') :: cacheInsert k v rest

/-- `min(self.query_cache.keys(), key=lambda k: self.query_cache[k][1])`:
the first entry with the minimal timestamp, by insertion order. -/
def oldestEntryKey (c : QueryCache) : Option CacheKey :=
  match c with
  | [] => none
  | e :: rest =>
    some (rest.foldl (fun best x => if x.2.time < best.2.time then x else best) e).1

def cacheRemove (k : CacheKey) (c : QueryCache) : QueryCache :=
  c.filter (fun e => e.1 ≠ k)

/-- Python truthiness of the `filters` argument (`if not filters`):
`None` and the empty dict are falsy. -/
def filtersTruthy (filters : Option (List (String × String))) : Bool :=
  match filters with
  | none => false
  | some l => !l.isEmpty

/-- The dict `SearchService.search` returns (fields the claims touch). -/
structure SearchResponse where
  success : Bool
  message : Option String
  results : List SearchResult
  cached : Bool
  deriving Repr, DecidableEq

/-- `SearchService.search` (lines 232-358): validation, query-cache
lookup (skipped when filters are truthy), embedding, vector search,
post-processing, query-cache store (skipped when filters are truthy,
with FIFO-by-age eviction above 100 entries). `now` models
`time.time()`; `cacheTTL` is `self.cache_ttl` (300 s in `__init__`).
Returns the response and the new query-cache contents. -/
def SearchService.search (env : SearchEnv) (cache : QueryCache) (now cacheTTL : ℚ)
    (query : List Char) (limit : Option Int) (scoreThreshold : Option ℚ)
    (filters : Option (List (String × String))) : SearchResponse × QueryCache :=
  if pyStrip query = [] then
    ({ success := false, message := some "Empty query provided",
       results := [], cached := false }, cache)
  else
    let normalized := pyStrip query
    let cacheKey : Option CacheKey :=
      if filtersTruthy filters then none
      else some { query := normalized, limit := limit, scoreThreshold := scoreThreshold }
    let freshHit : Option CacheEntry :=
      match cacheKey with
      | some k =>
        match cacheLookup cache k with
        | some e => if now - e.time < cacheTTL then some e else none
        | none => none
      | none => none
    match freshHit with
    | some e =>
      ({ success := true, message := none, results := e.results, cached := true }, cache)
    | none =>
      match encode_single env normalized with
      | .error _ =>
        ({ success := false, message := some "Search failed", results := [],
           cached := false }, cache)
      | .ok qe =>
        if qe.length = 0 then
          ({ success := false, message := some "Failed to process query",
             results := [], cached := false }, cache)
        else
          let processed := post_process_results env.vectorResults normalized
          let cache' :=
            match cacheKey with
            | some k =>
              if processed ≠ [] then
                let c1 := cacheInsert k { results := processed, time := now } cache
                if 100 < c1.length then
                  match oldestEntryKey c1 with
                  | some ok => cacheRemove ok c1
                  | none => c1
                else c1
              else cache
            | none => cache
          ({ success := true, message := none, results := processed,
             cached := false }, cache')

/-! ## vector_store.search_similar parameter defaulting and API validation -/

/-- `VectorStoreService.search_similar` lines 349-351:
`limit = limit or settings.default_limit` under Python truthiness
(`None` and `0` are falsy). -/
def searchSimilarEffectiveLimit (limit : Option Int) (s : Settings) : Int :=
  match limit with
  | none => s.default_limit
  | some l => if l = 0 then s.default_limit else l

/-- `score_threshold = score_threshold or settings.similarity_threshold`
(`None` and `0.0` are falsy). -/
def searchSimilarEffectiveThreshold (t : Option ℚ) (s : Settings) : ℚ :=
  match t with
  | none => s.similarity_threshold
  | some x => if x = 0 then s.similarity_threshold else x

/-- An `HTTPException(status_code=400, detail=...)`. -/
structure ApiError where
  statusCode : Nat
  detail : String
  deriving Repr, DecidableEq

/-- `app/api/dependencies.py` `validate_search_limits` (lines 331-370):
a supplied limit must be in 1..100 (rejected otherwise), a supplied
threshold must be in [0,1]; absent values fall back to the settings
defaults. -/
def validateLimitField (limit : Option Int) (s : Settings) : Except ApiError Int :=
  match limit with
  | some l =>
    if l ≤ 0 then
      Except.error { statusCode := 400, detail := "Limit must be greater than 0" }
    else if 100 < l then
      Except.error { statusCode := 400, detail := "Limit cannot exceed 100 results" }
    else Except.ok l
  | none => Except.ok s.default_limit

def validateThresholdField (scoreThreshold : Option ℚ) (s : Settings) : Except ApiError ℚ :=
  match scoreThreshold with
  | some t =>
    if 0 ≤ t ∧ t ≤ 1 then Except.ok t
    else
      Except.error
        { statusCode := 400, detail := "Score threshold must be between 0.0 and 1.0" }
  | none => Except.ok s.similarity_threshold

def validate_search_limits (limit : Option Int) (scoreThreshold : Option ℚ)
    (s : Settings) : Except ApiError (Int × ℚ) :=
  match validateLimitField limit s with
  | Except.error e => Except.error e
  | Except.ok l =>
    match validateThresholdField scoreThreshold s with
    | Except.error e => Except.error e
    | Except.ok t => Except.ok (l, t)

/-- The `SearchQueryError` raised by the `/search/semantic` endpoint. -/
structure SearchQueryErrorModel where
  query : List Char
  reason : String
  errorCode : String := "SEARCH_QUERY_ERROR"
  deriving Repr, DecidableEq

/-- Query validation of the `semantic_search` endpoint
(`app/api/endpoints/search.py` lines 112-125): empty/whitespace query
and over-long query raise `SearchQueryError`. -/
def semanticSearchValidate (query : List Char) : Except SearchQueryErrorModel Unit :=
  if pyStrip query = [] then
    .error { query := query, reason := "Query cannot be empty" }
  else if 1000 < query.length then
    .error { query := query, reason := "Query too long" }
  else .ok ()

/-! ## Concrete inputs used by counterexamples and witnesses -/

/-- 95 chars `aaa…a.` + space + 95 chars `bbb…b`: two sentences, each
fitting `max_size = 100` on its own. -/
def textC1 : List Char :=
  List.replicate 94 'a' ++ '.' :: ' ' :: List.replicate 95 'b'

/-- One vector-store candidate. -/
def r0 : SearchResult :=
  { chunk_id := "c0", text := ['w', 'o', 'r', 'd'], score := 7/10,
    source_file := "a.txt" }

/-- Environment whose embedding provider raises inside `model.encode`
and whose caches are empty. -/
def envC2 : SearchEnv :=
  { provider := .encodeError, embCache := none, vectorResults := [r0], dim := 384 }

/-- A memory tier at capacity (1000 entries) whose entry for `"t"` holds
the vector `[1]`; reachable by `put("t", [1])` followed by 999 puts of
distinct other texts. -/
def stC3 : EmbState :=
  { memory := ("t", [(1 : ℚ)]) :: (List.range 999).map (fun i => ("k" ++ toString i, [])),
    disk := [("t", some [(1 : ℚ)])] }

/-- One candidate from source file `"f"`. -/
def mkC5 (cid : String) (sc : ℚ) : SearchResult :=
  { chunk_id := cid, text := [], score := sc, source_file := "f" }

/-- Ten candidates, all from one source file, with strictly decreasing
scores 0.90, 0.89, …, 0.81. -/
def candidatesC5 : List SearchResult :=
  [mkC5 ("0") (90/100), mkC5 ("1") (89/100), mkC5 ("2") (88/100),
   mkC5 ("3") (87/100), mkC5 ("4") (86/100), mkC5 ("5") (85/100),
   mkC5 ("6") (84/100), mkC5 ("7") (83/100), mkC5 ("8") (82/100),
   mkC5 ("9") (81/100)]

end DeepLSearch

namespace DeepLSearch

/-! # Helper lemmas -/

theorem dropWhile_length_le (p : α → Bool) (l : List α) :
    (l.dropWhile p).length ≤ l.length :=
  (List.dropWhile_sublist p).length_le

theorem pyStrip_length_le (l : List Char) : (pyStrip l).length ≤ l.length := by
  simp only [pyStrip, List.length_reverse]
  exact le_trans (dropWhile_length_le _ _)
    (le_of_eq_of_le (List.length_reverse _) (dropWhile_length_le _ _))

theorem all_pyStrip {p : Char → Bool} {l : List Char} (h : l.all p) :
    (pyStrip l).all p := by
  rw [List.all_eq_true] at h ⊢
  intro x hx
  apply h
  simp only [pyStrip, List.mem_reverse] at hx
  exact (List.dropWhile_sublist _).subset
    (List.mem_reverse.mp ((List.dropWhile_sublist _).subset hx))

theorem chunkOk_pyStrip {size : Nat} {c : List Char} (h : chunkOk size c) :
    chunkOk size (pyStrip c) :=
  h.imp (le_trans (pyStrip_length_le c)) all_pyStrip

theorem pySplitAux_words :
    ∀ (rest cur : List Char), cur.all (fun c => !isPySpace c) = true →
    ∀ w ∈ pySplitAux cur rest, w.all (fun c => !isPySpace c) = true
  | [], cur, hcur, w, hw => by
    rw [pySplitAux] at hw
    by_cases hc : cur = []
    · simp [hc] at hw
    · simp only [hc, if_neg, List.mem_singleton, if_false] at hw
      subst hw
      simpa using hcur
  | c :: cs, cur, hcur, w, hw => by
    rw [pySplitAux] at hw
    by_cases hsp : isPySpace c
    · by_cases hc : cur = []
      · simp only [hsp, hc, if_pos, if_true] at hw
        exact pySplitAux_words cs [] rfl w hw
      · simp only [hsp, hc, if_neg, if_true, if_false, List.mem_cons] at hw
        rcases hw with hw | hw
        · subst hw; simpa using hcur
        · exact pySplitAux_words cs [] rfl w hw
    · simp only [hsp, if_false] at hw
      refine pySplitAux_words cs (c :: cur) ?_ w hw
      simp only [List.all_cons, Bool.and_eq_true]
      exact ⟨by simpa using hsp, hcur⟩

theorem pySplit_words (l : List Char) :
    ∀ w ∈ pySplit l, w.all (fun c => !isPySpace c) = true :=
  pySplitAux_words l [] rfl

theorem wordLoop_ok (size : Nat) :
    ∀ (ws : List (List Char)) (wc : List Char) (acc : List (List Char)),
    (∀ w ∈ ws, w.all (fun c => !isPySpace c) = true) → chunkOk size wc →
    (∀ c ∈ acc, chunkOk size c) →
    (∀ c ∈ (wordLoop size ws wc acc).1, chunkOk size c) ∧
      chunkOk size (wordLoop size ws wc acc).2
  | [], wc, acc, _, hwc, hacc => by
    rw [wordLoop]
    exact ⟨hacc, hwc⟩
  | w :: ws, wc, acc, hws, hwc, hacc => by
    rw [wordLoop]
    have htail : ∀ w' ∈ ws, w'.all (fun c => !isPySpace c) = true :=
      fun w' hw' => hws w' (List.mem_cons_of_mem w hw')
    have hword : w.all (fun c => !isPySpace c) = true := hws w (List.mem_cons_self w ws)
    by_cases h1 : (wc ++ ' ' :: w).length ≤ size
    · simp only [if_pos h1]
      refine wordLoop_ok size ws _ acc htail ?_ hacc
      by_cases h2 : wc = []
      · simp only [if_pos h2]
        left
        have : (wc ++ ' ' :: w).length = wc.length + (w.length + 1) := by
          simp [List.length_append]
        omega
      · simp only [if_neg h2]
        exact Or.inl h1
    · simp only [if_neg h1]
      by_cases h2 : wc = []
      · simp only [if_pos h2]
        exact wordLoop_ok size ws w acc htail (Or.inr hword) hacc
      · simp only [if_neg h2]
        refine wordLoop_ok size ws w _ htail (Or.inr hword) ?_
        intro c hc
        rcases List.mem_append.mp hc with hc | hc
        · exact hacc c hc
        · rw [List.mem_singleton.mp hc]
          exact chunkOk_pyStrip hwc

theorem sentenceLoop_ok (size : Nat) :
    ∀ (ss : List (List Char)) (cur : List Char) (acc : List (List Char)),
    chunkOk size cur → (∀ c ∈ acc, chunkOk size c) →
    (∀ c ∈ (sentenceLoop size ss cur acc).1, chunkOk size c) ∧
      chunkOk size (sentenceLoop size ss cur acc).2
  | [], cur, acc, hcur, hacc => by
    rw [sentenceLoop]
    exact ⟨hacc, hcur⟩
  | s :: ss, cur, acc, hcur, hacc => by
    rw [sentenceLoop]
    by_cases h1 : (cur ++ ' ' :: s).length ≤ size
    · simp only [if_pos h1]
      refine sentenceLoop_ok size ss _ acc ?_ hacc
      by_cases h2 : cur = []
      · simp only [if_pos h2]
        left
        have : (cur ++ ' ' :: s).length = cur.length + (s.length + 1) := by
          simp [List.length_append]
        omega
      · simp only [if_neg h2]
        exact Or.inl h1
    · simp only [if_neg h1]
      have hacc' : ∀ c ∈ (if cur = [] then acc else acc ++ [pyStrip cur]), chunkOk size c := by
        by_cases h2 : cur = []
        · simpa [h2] using hacc
        · simp only [if_neg h2]
          intro c hc
          rcases List.mem_append.mp hc with hc | hc
          · exact hacc c hc
          · rw [List.mem_singleton.mp hc]
            exact chunkOk_pyStrip hcur
      by_cases h3 : s.length ≤ size
      · simp only [if_pos h3]
        exact sentenceLoop_ok size ss s _ (Or.inl h3) hacc'
      · simp only [if_neg h3]
        have hw := wordLoop_ok size (pySplit s) [] _ (pySplit_words s)
          (Or.inl (by simp)) hacc'
        exact sentenceLoop_ok size ss _ _ hw.2 hw.1

theorem preChunks_ok (size : Nat) (text : List Char) :
    ∀ c ∈ preChunks size text, chunkOk size c := by
  unfold preChunks
  have h := sentenceLoop_ok size (sentenceSplit text) [] [] (Or.inl (by simp))
    (by intro c hc; cases hc)
  by_cases h2 : (sentenceLoop size (sentenceSplit text) [] []).2 = []
  · simpa [h2] using h.1
  · simp only [if_neg h2]
    intro c hc
    rcases List.mem_append.mp hc with hc | hc
    · exact h.1 c hc
    · rw [List.mem_singleton.mp hc]
      exact chunkOk_pyStrip h.2

theorem collapseRunsAux_all_true (p : Char → Bool) (repl : Char) :
    ∀ l : List Char, l.all p → collapseRunsAux p repl true l = []
  | [], _ => rfl
  | c :: cs, h => by
    rw [List.all_cons, Bool.and_eq_true] at h
    simp [collapseRunsAux, h.1, collapseRunsAux_all_true p repl cs h.2]

/-- A whitespace-only input cleans to the empty text. -/
theorem clean_text_all_space (raw : List Char) (h : raw.all isPySpace) :
    clean_text raw = [] := by
  cases raw with
  | nil => decide
  | cons c cs =>
    rw [List.all_cons, Bool.and_eq_true] at h
    have h1 : collapseRuns isPySpace ' ' (c :: cs) = [' '] := by
      simp [collapseRuns, collapseRunsAux, h.1,
        collapseRunsAux_all_true isPySpace ' ' cs h.2]
    unfold clean_text
    rw [h1]
    decide

/-! # Claims -/

/-- C10: in `VectorStoreService.search_similar`, a caller-supplied
`score_threshold` of exactly `0.0` and a caller-supplied `limit` of `0`
are each treated as unspecified (Python truthiness in
`limit or settings.default_limit` / `score_threshold or
settings.similarity_threshold`), so such a call runs with the configured
defaults: threshold `0.5` and limit `10`. -/
theorem truthiness_defaulting :
    searchSimilarEffectiveLimit (some 0) defaultSettings = 10 ∧
    searchSimilarEffectiveThreshold (some 0) defaultSettings = 1/2 ∧
    searchSimilarEffectiveLimit none defaultSettings = 10 ∧
    searchSimilarEffectiveThreshold none defaultSettings = 1/2 := by
  refine ⟨rfl, ?_, rfl, rfl⟩
  simp [searchSimilarEffectiveThreshold, defaultSettings]

/-- C8 counterexample: a request with `limit = 101` does not succeed with
a clamped limit of 100 — `validate_search_limits` rejects it with an
HTTP 400 error. -/
theorem limit_over_100_rejected :
    validate_search_limits (some 101) none defaultSettings =
      Except.error { statusCode := 400, detail := "Limit cannot exceed 100 results" } := by
  rfl

/-- C8 amended: a supplied limit above 100 (or below 1) is rejected with
an HTTP 400 validation error rather than clamped; an accepted explicit
limit is passed through unchanged and lies in 1..100; unspecified limit
and threshold fall back to the settings defaults (10 and 0.5); and the
vector-store layer itself applies no cap (a nonzero limit passes through
`search_similar`'s defaulting untouched, however large). -/
theorem limit_validation_amended :
    (∀ l : Int, 100 < l → ∀ t s, validate_search_limits (some l) t s =
      Except.error { statusCode := 400, detail := "Limit cannot exceed 100 results" }) ∧
    (validate_search_limits none none defaultSettings =
      Except.ok (10, 1/2)) ∧
    (∀ (l : Int) (t : ℚ) (lv : Int) (tv : ℚ) (s : Settings),
      validate_search_limits (some l) (some t) s = Except.ok (lv, tv) →
      lv = l ∧ 0 < lv ∧ lv ≤ 100 ∧ tv = t) ∧
    (∀ l : Int, l ≠ 0 → searchSimilarEffectiveLimit (some l) defaultSettings = l) := by
  refine ⟨?_, ?_, ?_, ?_⟩
  · intro l hl t s
    have h1 : ¬l ≤ 0 := by omega
    simp [validate_search_limits, validateLimitField, h1, hl]
  · rfl
  · intro l t lv tv s h
    by_cases h1 : l ≤ 0
    · simp [validate_search_limits, validateLimitField, h1] at h
    · by_cases h2 : 100 < l
      · simp [validate_search_limits, validateLimitField, h1, h2] at h
      · by_cases h3 : 0 ≤ t ∧ t ≤ 1
        · simp [validate_search_limits, validateLimitField, validateThresholdField,
            h1, h2, h3] at h
          exact ⟨h.1.symm, by omega, by omega, h.2.symm⟩
        · simp [validate_search_limits, validateLimitField, validateThresholdField,
            h1, h2, h3] at h
  · intro l hl
    simp [searchSimilarEffectiveLimit, hl]

theorem limit_validation_amended_witness :
    validate_search_limits (some 101) none defaultSettings =
      Except.error { statusCode := 400, detail := "Limit cannot exceed 100 results" } ∧
    searchSimilarEffectiveLimit (some 500) defaultSettings = 500 :=
  ⟨limit_validation_amended.1 101 (by omega) none defaultSettings,
    limit_validation_amended.2.2.2 500 (by omega)⟩

/-- C9 counterexample: the input `"@"` is non-empty, not whitespace-only
and shorter than `max_size = 1000`, yet the chunking stage yields no
segment at all (cleaning strips `@` away entirely), not one segment. -/
theorem chunk_edge_case_counterexample :
    chunkPipeline 1000 200 ['@'] = [] ∧ (['@'] : List Char) ≠ [] ∧
    ¬(['@'].all isPySpace = true) := by
  decide

/-- C9 amended: empty or whitespace-only input — and more generally any
input whose cleaned form is empty — yields an empty sequence of segments;
input whose cleaned form is non-empty and shorter than `max_size` yields
exactly one segment equal to the cleaned input. -/
theorem chunk_edge_cases_amended (size overlap : Nat) (raw : List Char) :
    (raw.all isPySpace → chunkPipeline size overlap raw = []) ∧
    (clean_text raw = [] → chunkPipeline size overlap raw = []) ∧
    (clean_text raw ≠ [] → (clean_text raw).length < size →
      chunkPipeline size overlap raw = [clean_text raw]) := by
  refine ⟨?_, ?_, ?_⟩
  · intro h
    simp [chunkPipeline, split_into_chunks, clean_text_all_space raw h]
  · intro h
    simp [chunkPipeline, split_into_chunks, h]
  · intro h1 h2
    simp [chunkPipeline, split_into_chunks, h1, h2]

theorem chunk_edge_cases_amended_witness :
    chunkPipeline 1000 200 [' '] = [] ∧
    chunkPipeline 1000 200 ['h', 'i'] = [clean_text ['h', 'i']] :=
  ⟨(chunk_edge_cases_amended 1000 200 [' ']).1 (by decide),
    (chunk_edge_cases_amended 1000 200 ['h', 'i']).2.2 (by decide) (by decide)⟩

/-- C7: a persistent-tier entry that fails to deserialize is treated as a
miss (`None` is returned), the corrupt entry is removed from the
persistent tier, the memory tier is untouched, and no exception reaches
the caller (`EmbeddingCache.get` is a total function of the state). -/
theorem corrupt_entry_self_heal (h : String → String) (st : EmbState) (t : String)
    (hm : st.memory.lookup (h t) = none) (hd : st.disk.lookup (h t) = some none) :
    (EmbeddingCache.get h t st).1 = none ∧
    (EmbeddingCache.get h t st).2 =
      { st with disk := dictRemove (h t) st.disk } := by
  simp [EmbeddingCache.get, hm, hd]

theorem corrupt_entry_self_heal_witness :
    (EmbeddingCache.get id ("x") { memory := [], disk := [("x", none)] }).1 = none ∧
    (EmbeddingCache.get id ("x") { memory := [], disk := [("x", none)] }).2 =
      { memory := [], disk := dictRemove (id ("x")) [("x", none)] } :=
  corrupt_entry_self_heal id { memory := [], disk := [("x", none)] } ("x")
    (by decide) (by decide)

/-- C6: a search call whose query is empty or whitespace-only fails
validation — the endpoint raises a typed `SearchQueryError`, and
`SearchService.search` returns the failure response with no results and
an unchanged query cache, for every environment (so no embedding,
vector-query, ranking or caching stage can have run). -/
theorem empty_query_rejected (query : List Char) (h : pyStrip query = []) :
    semanticSearchValidate query =
      Except.error { query := query, reason := "Query cannot be empty" } ∧
    ∀ (env : SearchEnv) (cache : QueryCache) (now ttl : ℚ) (limit : Option Int)
      (thr : Option ℚ) (filters : Option (List (String × String))),
      SearchService.search env cache now ttl query limit thr filters =
        ({ success := false, message := some "Empty query provided",
           results := [], cached := false }, cache) := by
  constructor
  · simp [semanticSearchValidate, h]
  · intro env cache now ttl limit thr filters
    simp [SearchService.search, h]

theorem empty_query_rejected_witness :
    semanticSearchValidate [' '] =
      Except.error { query := [' '], reason := "Query cannot be empty" } ∧
    SearchService.search envC2 [] 0 300 [' '] none none none =
      ({ success := false, message := some "Empty query provided",
         results := [], cached := false }, []) :=
  ⟨(empty_query_rejected [' '] (by decide)).1,
    (empty_query_rejected [' '] (by decide)).2 envC2 [] 0 300 none none none⟩

set_option maxRecDepth 100000 in
/-- C1 counterexample: with valid parameters `max_size = 100`,
`overlap = 90`, the second produced segment of `textC1` — a segment
containing whitespace, so not a single unsplittable word — has length
191 > 100: the overlap prefix added at lines 368-377 pushes it past
`max_size`. -/
theorem chunk_size_bound_counterexample :
    ((split_into_chunks 100 90 textC1).getD 1 []) ∈ split_into_chunks 100 90 textC1 ∧
    100 < ((split_into_chunks 100 90 textC1).getD 1 []).length ∧
    ((split_into_chunks 100 90 textC1).getD 1 []).any isPySpace = true := by
  decide

/-- C1 amended: for valid parameters, the size bound holds of the chunk
list built by the greedy sentence/word accumulation *before* the overlap
pass: every such segment has length at most `max_size` or is a single
whitespace-free word. Segments to which the trailing-word overlap prefix
is then added may exceed `max_size` (see the counterexample). -/
theorem chunk_size_bound_pre_overlap (size overlap : Nat) (hsize : 100 ≤ size)
    (hov : overlap < size) (text : List Char) :
    ∀ c ∈ preChunks size text,
      c.length ≤ size ∨ c.all (fun ch => !isPySpace ch) = true :=
  preChunks_ok size text

set_option maxRecDepth 100000 in
theorem chunk_size_bound_pre_overlap_witness :
    ((preChunks 100 textC1).getD 0 []).length ≤ 100 ∨
      ((preChunks 100 textC1).getD 0 []).all (fun ch => !isPySpace ch) = true :=
  chunk_size_bound_pre_overlap 100 90 (by omega) (by omega) textC1
    ((preChunks 100 textC1).getD 0 []) (by decide)

theorem dropWhile_rdropWhile_self {p : Char → Bool} {x : List Char}
    (hx : x.dropWhile p = x) :
    (List.rdropWhile p x).dropWhile p = List.rdropWhile p x := by
  rcases hp : List.rdropWhile p x with _ | ⟨c, cs⟩
  · rfl
  · obtain ⟨t, ht⟩ := List.rdropWhile_prefix p (l := x)
    rw [hp] at ht
    subst ht
    have hc : ¬p c = true := by
      rw [List.dropWhile_eq_self_iff] at hx
      have := hx (by simp)
      simpa using this
    simp [List.dropWhile_cons, hc]

/-- `strip()` is idempotent. -/
theorem pyStrip_idem (l : List Char) : pyStrip (pyStrip l) = pyStrip l := by
  have hrepr : ∀ x : List Char, pyStrip x = List.rdropWhile isPySpace (x.dropWhile isPySpace) :=
    fun x => rfl
  rw [hrepr l, hrepr]
  rw [dropWhile_rdropWhile_self (List.dropWhile_idempotent _ _)]
  exact List.rdropWhile_idempotent _ _

set_option maxRecDepth 100000 in
/-- C2 counterexample: with an embedding provider that raises inside
`model.encode`, an empty embedding cache and one vector-store candidate,
the search call succeeds (`success = true`) and returns a result —
`encode_single` substitutes a zero vector of the configured dimension 384
(line 244) and the pipeline continues; no `EmbeddingUnavailable`-type
failure surfaces. -/
theorem embedding_failure_counterexample :
    (SearchService.search envC2 [] 0 300 ['h', 'i'] none none none).1.success = true ∧
    (SearchService.search envC2 [] 0 300 ['h', 'i'] none none none).1.results.length = 1 ∧
    encode_single envC2 (pyStrip ['h', 'i']) = Except.ok (List.replicate 384 0) :=
  ⟨by decide, by decide, rfl⟩

/-- C2 amended: an exception in the embedding provider during encoding
does not fail the search call: `encode_single` catches it and returns a
zero vector of the configured dimension, and — for any non-empty query,
cache miss, and positive dimension — the search succeeds, ranking
whatever the vector store returned for the zero vector. Only a
`RuntimeError` from model loading propagates, and the `len == 0` guard
cannot trigger on the fallback when the dimension is positive. -/
theorem embedding_failure_zero_vector_fallback (env : SearchEnv) (now ttl : ℚ)
    (query : List Char) (limit : Option Int) (thr : Option ℚ)
    (filters : Option (List (String × String)))
    (hp : env.provider = ProviderOutcome.encodeError) (hc : env.embCache = none)
    (hq : pyStrip query ≠ []) (hd : 0 < env.dim) :
    encode_single env (pyStrip query) = Except.ok (List.replicate env.dim 0) ∧
    (SearchService.search env [] now ttl query limit thr filters).1.success = true ∧
    (SearchService.search env [] now ttl query limit thr filters).1.results =
      post_process_results env.vectorResults (pyStrip query) := by
  have henc : encode_single env (pyStrip query) = Except.ok (List.replicate env.dim 0) := by
    unfold encode_single
    rw [pyStrip_idem]
    simp [hq, hc, hp]
  have hkey : (SearchService.search env [] now ttl query limit thr filters).1 =
      { success := true, message := none,
        results := post_process_results env.vectorResults (pyStrip query),
        cached := false } := by
    unfold SearchService.search
    by_cases hft : filtersTruthy filters = true
    · simp [hq, hft, henc, Nat.pos_iff_ne_zero.mp hd]
    · simp [hq, hft, cacheLookup, henc, Nat.pos_iff_ne_zero.mp hd]
  exact ⟨henc, by rw [hkey], by rw [hkey]⟩

set_option maxRecDepth 100000 in
theorem embedding_failure_zero_vector_fallback_witness :
    encode_single envC2 (pyStrip ['h', 'i']) = Except.ok (List.replicate 384 0) ∧
    (SearchService.search envC2 [] 0 300 ['h', 'i'] none none none).1.success = true :=
  ⟨(embedding_failure_zero_vector_fallback envC2 0 300 ['h', 'i'] none none none
      rfl rfl (by decide) (by decide)).1,
    (embedding_failure_zero_vector_fallback envC2 0 300 ['h', 'i'] none none none
      rfl rfl (by decide) (by decide)).2.1⟩

/-- C4: a search call carrying metadata filters (a non-empty filters
dict) neither consults nor writes the query-result cache: on every code
path the call returns `cached = false` and leaves the cache contents
unchanged. -/
theorem filtered_queries_never_cached (env : SearchEnv) (cache : QueryCache)
    (now ttl : ℚ) (query : List Char) (limit : Option Int) (thr : Option ℚ)
    (filters : Option (List (String × String))) (hf : filtersTruthy filters = true) :
    (SearchService.search env cache now ttl query limit thr filters).2 = cache ∧
    (SearchService.search env cache now ttl query limit thr filters).1.cached = false := by
  unfold SearchService.search
  by_cases hq : pyStrip query = []
  · simp [hq]
  · simp only [if_neg hq, hf]
    cases henc : encode_single env (pyStrip query) with
    | error e => simp [hf, henc]
    | ok qe =>
      by_cases hlen : qe.length = 0
      · simp [hf, henc, hlen]
      · simp [hf, henc, hlen]

set_option maxRecDepth 100000 in
theorem filtered_queries_never_cached_witness :
    (SearchService.search envC2 [] 0 300 ['h', 'i'] none none
      (some [("file_name", "a.txt")])).2 = [] ∧
    (SearchService.search envC2 [] 0 300 ['h', 'i'] none none
      (some [("file_name", "a.txt")])).1.cached = false :=
  filtered_queries_never_cached envC2 [] 0 300 ['h', 'i'] none none
    (some [("file_name", "a.txt")]) (by decide)

theorem lookup_dictInsert_self (k : String) (v : α) (l : List (String × α)) :
    (dictInsert k v l).lookup k = some v := by
  induction l with
  | nil => simp [dictInsert, List.lookup]
  | cons e rest ih =>
    obtain ⟨k', v'⟩ := e
    by_cases h : k' = k
    · simp [dictInsert, h, List.lookup]
    · simp [dictInsert, h, List.lookup, ih,
        beq_eq_false_iff_ne.mpr (Ne.symm h)]

theorem lookup_dictInsert_ne (k k' : String) (hk : k' ≠ k) (v : α)
    (l : List (String × α)) :
    (dictInsert k v l).lookup k' = l.lookup k' := by
  induction l with
  | nil => simp [dictInsert, List.lookup, beq_eq_false_iff_ne.mpr hk]
  | cons e rest ih =>
    obtain ⟨k0, v0⟩ := e
    by_cases h : k0 = k
    · subst h
      simp [dictInsert, List.lookup, beq_eq_false_iff_ne.mpr hk]
    · simp only [dictInsert, if_neg h, List.lookup]
      cases hb : k' == k0 <;> simp [hb, ih]

/-- After a `put` whose memory write was not blocked (memory below
capacity, or no stale entry for the key), the state holds the vector. -/
theorem put_holdsVec (h : String → String) (t : String) (v : List ℚ) (st : EmbState)
    (pre : st.memory.lookup (h t) = none ∨ st.memory.length < maxMemoryItems) :
    (EmbeddingCache.put h t v st).holdsVec (h t) v := by
  unfold EmbeddingCache.put EmbState.holdsVec
  by_cases hlen : st.memory.length < maxMemoryItems
  · left
    simp [hlen, lookup_dictInsert_self]
  · rcases pre with hm | hl
    · right
      simp [hlen, hm, lookup_dictInsert_self]
    · exact absurd hl hlen

/-- `get` on a state holding `v` answers `v` and leaves a state that
still holds `v` (so repeated `get`s keep answering `v`). -/
theorem get_of_holdsVec (h : String → String) (t : String) (v : List ℚ) (st : EmbState)
    (hv : st.holdsVec (h t) v) :
    (EmbeddingCache.get h t st).1 = some v ∧
      ((EmbeddingCache.get h t st).2).holdsVec (h t) v := by
  rcases hv with hm | ⟨hm, hd⟩
  · have h2 : (EmbeddingCache.get h t st).2 = st := by
      simp [EmbeddingCache.get, hm]
    refine ⟨by simp [EmbeddingCache.get, hm], ?_⟩
    rw [h2]
    exact Or.inl hm
  · by_cases hlen : st.memory.length < maxMemoryItems
    · have h2 : (EmbeddingCache.get h t st).2 =
          { st with memory := dictInsert (h t) v st.memory } := by
        simp [EmbeddingCache.get, hm, hd, hlen]
      refine ⟨by simp [EmbeddingCache.get, hm, hd, hlen], ?_⟩
      rw [h2]
      exact Or.inl (lookup_dictInsert_self _ _ _)
    · have h2 : (EmbeddingCache.get h t st).2 = st := by
        simp [EmbeddingCache.get, hm, hd, hlen]
      refine ⟨by simp [EmbeddingCache.get, hm, hd, hlen], ?_⟩
      rw [h2]
      exact Or.inr ⟨hm, hd⟩

set_option maxRecDepth 100000 in
/-- C3 counterexample: with the memory tier at its capacity of 1000
entries and holding the stale vector `[1]` for text `"t"`,
`put("t", [2])` skips the memory tier (lines 92-93) while updating the
persistent tier, and the following `get("t")` answers the stale memory
value `[1] ≠ [2]`. -/
theorem cache_put_get_counterexample :
    (EmbeddingCache.get id ("t") (EmbeddingCache.put id ("t") [(2 : ℚ)] stC3)).1 =
      some [(1 : ℚ)] ∧
    ([(1 : ℚ)] : List ℚ) ≠ [(2 : ℚ)] := by
  constructor
  · decide
  · decide

/-- C3 amended: `put(T, V)` followed by `get(T)` returns `V` — and
further `get(T)` calls keep returning `V` — provided the memory tier was
below capacity or held no (possibly stale) entry for `T`'s fingerprint
when the `put` ran (and the persistent write succeeded, as modelled);
`get` on a text whose fingerprint was never put returns `None`, and puts
of other texts preserve that absence (fingerprints being injective). -/
theorem cache_put_get_amended (h : String → String) (hinj : Function.Injective h)
    (st : EmbState) (t : String) (v : List ℚ) :
    (st.memory.lookup (h t) = none ∨ st.memory.length < maxMemoryItems →
      (EmbeddingCache.get h t (EmbeddingCache.put h t v st)).1 = some v ∧
      ((EmbeddingCache.get h t (EmbeddingCache.put h t v st)).2).holdsVec (h t) v) ∧
    (st.absentFor (h t) → (EmbeddingCache.get h t st).1 = none) ∧
    (∀ (u : String) (w : List ℚ), u ≠ t → st.absentFor (h t) →
      (EmbeddingCache.put h u w st).absentFor (h t)) := by
  refine ⟨?_, ?_, ?_⟩
  · intro pre
    exact get_of_holdsVec h t v _ (put_holdsVec h t v st pre)
  · intro ⟨hm, hd⟩
    unfold EmbeddingCache.get
    simp [hm, hd]
  · intro u w hu ⟨hm, hd⟩
    have hne : h t ≠ h u := fun he => hu (hinj he).symm
    unfold EmbeddingCache.put EmbState.absentFor
    constructor
    · by_cases hlen : st.memory.length < maxMemoryItems
      · simpa [hlen, lookup_dictInsert_ne _ _ hne] using hm
      · simpa [hlen] using hm
    · simpa [lookup_dictInsert_ne _ _ hne] using hd

theorem cache_put_get_amended_witness :
    (EmbeddingCache.get id ("a")
      (EmbeddingCache.put id ("a") [(3 : ℚ)] { memory := [], disk := [] })).1 =
      some [(3 : ℚ)] ∧
    (EmbeddingCache.get id ("b") { memory := [], disk := [] }).1 = none ∧
    (EmbeddingCache.put id ("c") [] { memory := [], disk := [] }).absentFor (id ("b")) :=
  ⟨((cache_put_get_amended id Function.injective_id { memory := [], disk := [] }
      ("a") [(3 : ℚ)]).1 (Or.inl rfl)).1,
    (cache_put_get_amended id Function.injective_id { memory := [], disk := [] }
      ("b") []).2.1 ⟨rfl, rfl⟩,
    (cache_put_get_amended id Function.injective_id { memory := [], disk := [] }
      ("b") []).2.2 ("c") [] (by decide) ⟨rfl, rfl⟩⟩

theorem diversityLoop_length (m : Nat) :
    ∀ (counts : String → Nat) (l : List SearchResult),
    (diversityLoop m counts l).length = l.length
  | _, [] => rfl
  | counts, r :: rs => by
    rw [diversityLoop]
    by_cases hk : counts r.source_file < m
    · simp [hk, diversityLoop_length m _ rs]
    · simp [hk, diversityLoop_length m counts rs]

theorem diversityLoop_mem (m : Nat) :
    ∀ (counts : String → Nat) (l : List SearchResult),
    ∀ r ∈ diversityLoop m counts l, r ∈ l ∨ ∃ e ∈ l, r = penalize e
  | _, [], r, hr => by cases hr
  | counts, x :: rs, r, hr => by
    rw [diversityLoop] at hr
    by_cases hk : counts x.source_file < m
    · simp only [if_pos hk, List.mem_cons] at hr
      rcases hr with hr | hr
      · exact Or.inl (hr ▸ List.mem_cons_self x rs)
      · rcases diversityLoop_mem m _ rs r hr with h | ⟨e, he, hre⟩
        · exact Or.inl (List.mem_cons_of_mem x h)
        · exact Or.inr ⟨e, List.mem_cons_of_mem x he, hre⟩
    · simp only [if_neg hk, List.mem_cons] at hr
      rcases hr with hr | hr
      · exact Or.inr ⟨x, List.mem_cons_self x rs, hr⟩
      · rcases diversityLoop_mem m counts rs r hr with h | ⟨e, he, hre⟩
        · exact Or.inl (List.mem_cons_of_mem x h)
        · exact Or.inr ⟨e, List.mem_cons_of_mem x he, hre⟩

/-- The per-source quota invariant of the diversity pass: starting from
`counts s ≤ m`, the output contains at most `m - counts s` unpenalized
results from source `s`. -/
theorem diversityLoop_unpen_le (m : Nat) (s : String) :
    ∀ (l : List SearchResult) (counts : String → Nat), counts s ≤ m →
    (diversityLoop m counts l).countP (unpenFrom s) ≤ m - counts s
  | [], _, _ => by simp [diversityLoop]
  | r :: rs, counts, hc => by
    rw [diversityLoop]
    by_cases hk : counts r.source_file < m
    · rw [if_pos hk, List.countP_cons]
      by_cases hs : r.source_file = s
      · have hupd : Function.update counts r.source_file
            (counts r.source_file + 1) s = counts s + 1 := by
          subst hs
          simp [Function.update_same]
        have hle : counts s + 1 ≤ m := by
          rw [hs] at hk
          omega
        have ihr := diversityLoop_unpen_le m s rs
          (Function.update counts r.source_file (counts r.source_file + 1))
          (by rw [hupd]; exact hle)
        rw [hupd] at ihr
        have hif : (if unpenFrom s r = true then 1 else 0) ≤ 1 := by
          split <;> omega
        omega
      · have hupd : Function.update counts r.source_file
            (counts r.source_file + 1) s = counts s :=
          Function.update_noteq (Ne.symm hs) _ _
        have ihr := diversityLoop_unpen_le m s rs
          (Function.update counts r.source_file (counts r.source_file + 1))
          (by rw [hupd]; exact hc)
        rw [hupd] at ihr
        have hif : (if unpenFrom s r = true then 1 else 0) = 0 := by
          simp [unpenFrom, hs]
        omega
    · rw [if_neg hk, List.countP_cons]
      have hif : (if unpenFrom s (penalize r) = true then 1 else 0) = 0 := by
        simp [unpenFrom, penalize]
      have ihr := diversityLoop_unpen_le m s rs counts hc
      omega

set_option maxRecDepth 100000 in
/-- C5: for a candidate list of size `N`, the ranking stage keeps every
candidate (output size `N`), leaves at most `max 1 (N / 3)` unpenalized
results per source file, returns only enhanced candidates or
`×0.8`-penalized-and-flagged enhanced candidates, and re-sorts the whole
list by final score descending. On the concrete ten candidates from one
source, exactly the top-3-scoring (`"0"`, `"1"`, `"2"`) stay unpenalized
and the other seven carry the diversity penalty. -/
theorem diversity_quota (results : List SearchResult) (query : List Char) :
    (post_process_results results query).length = results.length ∧
    (∀ s : String, (post_process_results results query).countP (unpenFrom s) ≤
      max 1 (results.length / 3)) ∧
    (∀ r ∈ post_process_results results query,
      r ∈ results.map (enhanceResult ((pySplit (toLowerL query)).dedup)) ∨
      ∃ e ∈ results.map (enhanceResult ((pySplit (toLowerL query)).dedup)),
        r = penalize e) ∧
    (post_process_results results query).Pairwise scoreGE ∧
    (((post_process_results candidatesC5 ['q']).filter
        (fun r => !r.metadata.diversityPenalty)).map (fun r => r.chunk_id) =
      ["0", "1", "2"] ∧
      (post_process_results candidatesC5 ['q']).countP
        (fun r => r.metadata.diversityPenalty = true) = 7) := by
  by_cases hres : results = []
  · subst hres
    refine ⟨rfl, by simp [post_process_results], by simp [post_process_results],
      by simp [post_process_results], by decide, by decide⟩
  · unfold post_process_results
    simp only [if_neg hres]
    refine ⟨?_, ?_, ?_, ?_, by decide, by decide⟩
    · simp [sortByScoreDesc, diversityLoop_length]
    · intro s
      rw [sortByScoreDesc, (List.perm_insertionSort scoreGE _).countP_eq]
      have h := diversityLoop_unpen_le (max 1 (results.length / 3)) s
        (sortByScoreDesc (results.map
          (enhanceResult ((pySplit (toLowerL query)).dedup))))
        (fun _ => 0) (by simp)
      simpa using h
    · intro r hr
      rw [sortByScoreDesc, List.mem_insertionSort] at hr
      rcases diversityLoop_mem _ _ _ r hr with h | ⟨e, he, hre⟩
      · rw [sortByScoreDesc, List.mem_insertionSort] at h
        exact Or.inl h
      · rw [sortByScoreDesc, List.mem_insertionSort] at he
        exact Or.inr ⟨e, he, hre⟩
    · exact List.sorted_insertionSort scoreGE _

set_option maxRecDepth 100000 in
theorem diversity_quota_witness :
    (post_process_results candidatesC5 ['q']).length = 10 ∧
    (post_process_results candidatesC5 ['q']).countP (unpenFrom ("f")) ≤
      max 1 (10 / 3) ∧
    (((post_process_results candidatesC5 ['q']).getD 0 r0) ∈
        candidatesC5.map (enhanceResult ((pySplit (toLowerL ['q'])).dedup)) ∨
      ∃ e ∈ candidatesC5.map (enhanceResult ((pySplit (toLowerL ['q'])).dedup)),
        (post_process_results candidatesC5 ['q']).getD 0 r0 = penalize e) :=
  ⟨(diversity_quota candidatesC5 ['q']).1,
    (diversity_quota candidatesC5 ['q']).2.1 ("f"),
    (diversity_quota candidatesC5 ['q']).2.2.1
      ((post_process_results candidatesC5 ['q']).getD 0 r0) (by decide)⟩

end DeepLSearch
